import Mathlib

/-!
Shallow embedding of the time-bank system:
* `user_profile_service/app/main.py` — the balance store and `transfer_credits`;
* `exchange_service/app/main.py` — the task lifecycle engine
  (`create_task`, `update_task`, `accept_task`, `start_task`,
  `complete_task`, `cancel_task`).

Redis hashes become finite partial maps `String → Option _`; each endpoint
becomes a pure function returning `Except` (an HTTP error raised before any
`hset` leaves the store unchanged, which the `Except` encoding makes
structural).  Python ints are `Int`; timestamps are abstract `Nat` ticks
supplied by the caller (`datetime.now`).
-/

/-- One user record, the fields of the `user:{id}` Redis hash
(`user_profile_service/app/main.py`, `create_user`). `time_credits` is the
balance; the other fields ride along so that a transfer writes back whole
records exactly as `hset(..., mapping=from_user_data)` does. -/
structure UserRecord where
  name : String
  email : String
  descr : String
  time_credits : Int
  created_at : Nat
deriving DecidableEq

/-- The balance store: `user_id → record`, `none` when the hash is absent
(`_get_user_from_redis`). -/
def UserStore : Type := String → Option UserRecord

/-- `redis_client.hset("user:" ++ id, mapping=rec)`: overwrite one key. -/
def setUser (s : UserStore) (user_id : String) (rec : UserRecord) : UserStore :=
  fun k => if k = user_id then some rec else s k

/-- Body of `POST /users/transfer` (`TransferRequest` in
`user_profile_service/app/models.py`). -/
structure TransferRequest where
  from_user_id : String
  to_user_id : String
  amount : Int
deriving DecidableEq

/-- `UserBalanceResponse` from `user_profile_service/app/models.py`. -/
structure UserBalanceResponse where
  id : String
  time_credits : Int
deriving DecidableEq

/-- `TransferResponse` from `user_profile_service/app/models.py`. -/
structure TransferResponse where
  from_user : UserBalanceResponse
  to_user : UserBalanceResponse
deriving DecidableEq

/-- The errors `transfer_credits` can raise, one per `HTTPException` site:
400 "Transfer amount must be positive", 404 "From user not found",
404 "To user not found", 400 "Insufficient credits". -/
inductive TransferError where
  | badRequest
  | fromUserNotFound
  | toUserNotFound
  | insufficientFunds
deriving DecidableEq

/-- Both 404 sites report a missing user. -/
def TransferError.isUserNotFound : TransferError → Bool
  | .fromUserNotFound => true
  | .toUserNotFound => true
  | _ => false

/-- `transfer_credits` (`user_profile_service/app/main.py`, lines 166–211).
Checks in source order: positive amount, `from` exists, `to` exists,
sufficient sender credits; then builds both updated records from the
pre-call reads and performs the two `hset` writes in order (`from` first,
then `to` — so when the two ids coincide the second write wins).  The
response reports the `time_credits` fields of the two in-memory records. -/
def transfer_credits (store : UserStore) (transfer : TransferRequest) :
    Except TransferError (UserStore × TransferResponse) :=
  if transfer.amount ≤ 0 then
    .error .badRequest
  else
    match store transfer.from_user_id with
    | none => .error .fromUserNotFound
    | some from_user_data =>
      match store transfer.to_user_id with
      | none => .error .toUserNotFound
      | some to_user_data =>
        let sender_credits := from_user_data.time_credits
        if sender_credits < transfer.amount then
          .error .insufficientFunds
        else
          let from_user_data' :=
            { from_user_data with time_credits := sender_credits - transfer.amount }
          let to_user_data' :=
            { to_user_data with
                time_credits := to_user_data.time_credits + transfer.amount }
          let store₁ := setUser store transfer.from_user_id from_user_data'
          let store₂ := setUser store₁ transfer.to_user_id to_user_data'
          .ok (store₂,
            ⟨⟨transfer.from_user_id, from_user_data'.time_credits⟩,
             ⟨transfer.to_user_id, to_user_data'.time_credits⟩⟩)

/-- The HTTP handler as a store transformer: on any `HTTPException` the
store is returned untouched (no `hset` runs before a `raise`). -/
def transferStep (store : UserStore) (transfer : TransferRequest) : UserStore :=
  match transfer_credits store transfer with
  | .ok (store', _) => store'
  | .error _ => store

/-- The stored balance of a user, when the record exists. -/
def storedCredits (store : UserStore) (user_id : String) : Option Int :=
  (store user_id).map UserRecord.time_credits

/-! ## Exchange service -/

/-- `RequestState` from `exchange_service/app/models.py` — the five string
constants, as a closed enumeration. -/
inductive RequestState where
  | OPEN
  | PENDING
  | IN_PROGRESS
  | COMPLETED
  | CANCELLED
deriving DecidableEq

/-- One task record, the fields of the `task:{id}` Redis hash
(`create_task` writes them all).  `accepted_by_user_id` is stored as the
empty string until an accept succeeds, exactly as the source stores `""`. -/
structure TaskRecord where
  title : String
  descr : String
  requested_by_user_id : String
  accepted_by_user_id : String
  time_credit_offer : Int
  state : RequestState
  created_at : Nat
  updated_at : Nat
deriving DecidableEq

/-- The task store: `task_id → record` (`_get_task_from_redis`). -/
def TaskStore : Type := String → Option TaskRecord

/-- `redis_client.hset("task:" ++ id, mapping=data)`. -/
def setTask (s : TaskStore) (task_id : String) (t : TaskRecord) : TaskStore :=
  fun k => if k = task_id then some t else s k

/-- `RequestCreate` from `exchange_service/app/models.py`. -/
structure RequestCreate where
  title : String
  descr : String
  requested_by_user_id : String
  time_credit_offer : Int
deriving DecidableEq

/-- `RequestUpdate` from `exchange_service/app/models.py`. -/
structure RequestUpdate where
  title : Option String
  descr : Option String
  time_credit_offer : Option Int
deriving DecidableEq

/-- The errors the exchange endpoints raise, one per `HTTPException`
variety: 404 task not found, 400 wrong state, 403 caller guard,
400 non-positive offer, 404 requester/acceptor user not found,
400 "Credit transfer failed". -/
inductive ExchError where
  | NotFound
  | InvalidStateTransition
  | Forbidden
  | BadRequest
  | UserNotFound
  | TransferFailed
deriving DecidableEq

/-- `_validate_user_exists`: GET `/users/{id}` answers 200 exactly when the
hash exists in the balance store. -/
def validateUserExists (us : UserStore) (user_id : String) : Bool :=
  (us user_id).isSome

/-- `_transfer_credits` in `exchange_service/app/main.py`: POST to the user
service, `success = (status == 200)`; any transport exception is caught and
reported as `False` with no confirmed effect.  `transportOk = false` models
the exception branch. -/
def transferCall (transportOk : Bool) (us : UserStore)
    (from_user_id to_user_id : String) (amount : Int) : Bool × UserStore :=
  if transportOk then
    match transfer_credits us ⟨from_user_id, to_user_id, amount⟩ with
    | .ok (us', _) => (true, us')
    | .error _ => (false, us)
  else
    (false, us)

/-- `create_task` (`exchange_service/app/main.py`, lines 131–173).  Source
order: offer positivity first, then requester existence; on success a fresh
task hash in state `OPEN` with `accepted_by_user_id = ""`. -/
def create_task (ts : TaskStore) (us : UserStore) (task_create : RequestCreate)
    (task_id : String) (now : Nat) : Except ExchError (TaskStore × TaskRecord) :=
  if task_create.time_credit_offer ≤ 0 then
    .error .BadRequest
  else if ¬ validateUserExists us task_create.requested_by_user_id then
    .error .UserNotFound
  else
    let task : TaskRecord :=
      { title := task_create.title
        descr := task_create.descr
        requested_by_user_id := task_create.requested_by_user_id
        accepted_by_user_id := ""
        time_credit_offer := task_create.time_credit_offer
        state := .OPEN
        created_at := now
        updated_at := now }
    .ok (setTask ts task_id task, task)

/-- `update_task` (lines 186–215): 404 if absent, 400 unless `OPEN`, apply
the patch fields, 400 if a patched offer is non-positive (raised before the
`hset`, so the store is untouched), refresh `updated_at`. -/
def update_task (ts : TaskStore) (task_id : String) (task_update : RequestUpdate)
    (now : Nat) : Except ExchError (TaskStore × TaskRecord) :=
  match ts task_id with
  | none => .error .NotFound
  | some task_data =>
    if task_data.state ≠ .OPEN then
      .error .InvalidStateTransition
    else
      let t₁ := match task_update.title with
        | none => task_data
        | some v => { task_data with title := v }
      let t₂ := match task_update.descr with
        | none => t₁
        | some v => { t₁ with descr := v }
      match task_update.time_credit_offer with
      | some v =>
        if v ≤ 0 then
          .error .BadRequest
        else
          let t₃ := { t₂ with time_credit_offer := v, updated_at := now }
          .ok (setTask ts task_id t₃, t₃)
      | none =>
        let t₃ := { t₂ with updated_at := now }
        .ok (setTask ts task_id t₃, t₃)

/-- `accept_task` (lines 248–276): 404 if absent, 400 unless `OPEN`, 404
unless the acceptor user exists; then set `accepted_by_user_id` and move to
`PENDING`. -/
def accept_task (ts : TaskStore) (us : UserStore) (task_id : String)
    (acceptor_user_id : String) (now : Nat) : Except ExchError (TaskStore × TaskRecord) :=
  match ts task_id with
  | none => .error .NotFound
  | some task_data =>
    if task_data.state ≠ .OPEN then
      .error .InvalidStateTransition
    else if ¬ validateUserExists us acceptor_user_id then
      .error .UserNotFound
    else
      let t' := { task_data with
        accepted_by_user_id := acceptor_user_id
        state := .PENDING
        updated_at := now }
      .ok (setTask ts task_id t', t')

/-- `start_task` (lines 279–306): 404 if absent, 400 unless `PENDING`, 403
unless the caller is the stored acceptor; then move to `IN_PROGRESS`. -/
def start_task (ts : TaskStore) (task_id : String) (started_by_user_id : String)
    (now : Nat) : Except ExchError (TaskStore × TaskRecord) :=
  match ts task_id with
  | none => .error .NotFound
  | some task_data =>
    if task_data.state ≠ .PENDING then
      .error .InvalidStateTransition
    else if started_by_user_id ≠ task_data.accepted_by_user_id then
      .error .Forbidden
    else
      let t' := { task_data with state := .IN_PROGRESS, updated_at := now }
      .ok (setTask ts task_id t', t')

/-- `complete_task` (lines 309–347): 404 if absent, 400 unless
`IN_PROGRESS`, 403 unless the caller is the stored acceptor; then call the
transfer (requester → acceptor, `time_credit_offer`); on failure raise 400
with the task hash untouched, on success move to `COMPLETED`. -/
def complete_task (ts : TaskStore) (us : UserStore) (transportOk : Bool)
    (task_id : String) (completed_by_user_id : String) (now : Nat) :
    Except ExchError (TaskStore × UserStore × TaskRecord) :=
  match ts task_id with
  | none => .error .NotFound
  | some task_data =>
    if task_data.state ≠ .IN_PROGRESS then
      .error .InvalidStateTransition
    else if completed_by_user_id ≠ task_data.accepted_by_user_id then
      .error .Forbidden
    else
      match transferCall transportOk us task_data.requested_by_user_id
          task_data.accepted_by_user_id task_data.time_credit_offer with
      | (false, _) => .error .TransferFailed
      | (true, us') =>
        let t' := { task_data with state := .COMPLETED, updated_at := now }
        .ok (setTask ts task_id t', us', t')

/-- `cancel_task` (lines 350–377): 404 if absent, 400 unless `OPEN` or
`PENDING`, 403 unless the caller is the creator; then move to `CANCELLED`. -/
def cancel_task (ts : TaskStore) (task_id : String) (cancelled_by_user_id : String)
    (now : Nat) : Except ExchError (TaskStore × TaskRecord) :=
  match ts task_id with
  | none => .error .NotFound
  | some task_data =>
    if ¬ (task_data.state = .OPEN ∨ task_data.state = .PENDING) then
      .error .InvalidStateTransition
    else if cancelled_by_user_id ≠ task_data.requested_by_user_id then
      .error .Forbidden
    else
      let t' := { task_data with state := .CANCELLED, updated_at := now }
      .ok (setTask ts task_id t', t')

/-! ## The system as a whole: one step per lifecycle request -/

/-- Joint state: the exchange service's task hashes and the user profile
service's user hashes. -/
structure Sys where
  tasks : TaskStore
  users : UserStore

/-- One lifecycle request.  `createT` carries the freshly drawn uuid;
`completeT` carries whether the HTTP call to the user service goes through
without a transport exception. -/
inductive Op where
  | createT (req : RequestCreate) (newId : String)
  | updateT (id : String) (upd : RequestUpdate)
  | acceptT (id : String) (acceptor : String)
  | startT (id : String) (caller : String)
  | completeT (id : String) (caller : String) (transportOk : Bool)
  | cancelT (id : String) (caller : String)

/-- Dispatch one request to its endpoint; the error is the HTTP error the
endpoint raises, and a raised error writes nothing. -/
def applyOp (sys : Sys) (op : Op) (now : Nat) : Except ExchError Sys :=
  match op with
  | .createT req newId =>
    (create_task sys.tasks sys.users req newId now).map fun r => ⟨r.1, sys.users⟩
  | .updateT id upd =>
    (update_task sys.tasks id upd now).map fun r => ⟨r.1, sys.users⟩
  | .acceptT id acceptor =>
    (accept_task sys.tasks sys.users id acceptor now).map fun r => ⟨r.1, sys.users⟩
  | .startT id caller =>
    (start_task sys.tasks id caller now).map fun r => ⟨r.1, sys.users⟩
  | .completeT id caller transportOk =>
    (complete_task sys.tasks sys.users transportOk id caller now).map
      fun r => ⟨r.1, r.2.1⟩
  | .cancelT id caller =>
    (cancel_task sys.tasks id caller now).map fun r => ⟨r.1, sys.users⟩

/-- The observable state after a request: unchanged when the endpoint
raised. -/
def step (sys : Sys) (op : Op) (now : Nat) : Sys :=
  match applyOp sys op now with
  | .ok sys' => sys'
  | .error _ => sys

/-- Run a whole sequence of timestamped requests. -/
def runOps (sys : Sys) : List (Op × Nat) → Sys
  | [] => sys
  | (op, now) :: rest => runOps (step sys op now) rest

/-- The task id an operation addresses (`createT` addresses none: it draws a
fresh uuid). -/
def opTargets : Op → Option String
  | .createT _ _ => none
  | .updateT id _ => some id
  | .acceptT id _ => some id
  | .startT id _ => some id
  | .completeT id _ _ => some id
  | .cancelT id _ => some id

/-- The state precondition each endpoint checks, from its source guard. -/
def stateOk : Op → RequestState → Bool
  | .createT _ _, _ => true
  | .updateT _ _, s => s = .OPEN
  | .acceptT _ _, s => s = .OPEN
  | .startT _ _, s => s = .PENDING
  | .completeT _ _ _, s => s = .IN_PROGRESS
  | .cancelT _ _, s => s = .OPEN ∨ s = .PENDING

/-- `uuid.uuid4()` never collides with a stored task id. -/
def FreshCreate (sys : Sys) : Op → Prop
  | .createT _ newId => sys.tasks newId = none
  | _ => True

/-- A request trace whose creates all draw fresh uuids. -/
def WfTrace : Sys → List (Op × Nat) → Prop
  | _, [] => True
  | sys, (op, now) :: rest => FreshCreate sys op ∧ WfTrace (step sys op now) rest

/-- Every stored `OPEN` task still has the empty acceptor the create wrote. -/
def OpenUnset (sys : Sys) : Prop :=
  ∀ id t, sys.tasks id = some t → t.state = RequestState.OPEN →
    t.accepted_by_user_id = ""

/-- The transition edges of the task state machine named by the spec. -/
def allowedEdge (s s' : RequestState) : Prop :=
  (s = .OPEN ∧ s' = .PENDING) ∨ (s = .PENDING ∧ s' = .IN_PROGRESS) ∨
  (s = .IN_PROGRESS ∧ s' = .COMPLETED) ∨
  ((s = .OPEN ∨ s = .PENDING) ∧ s' = .CANCELLED)

/-! ## Concrete fixtures for witnesses and counterexamples -/

def demoUser : UserRecord := ⟨"Ada", "ada", "", 10, 0⟩

def demoUser2 : UserRecord := ⟨"Bo", "bo", "", 3, 0⟩

def oneUserStore : UserStore := fun k => if k = "u1" then some demoUser else none

def twoUserStore : UserStore :=
  fun k => if k = "u1" then some demoUser
    else if k = "u2" then some demoUser2 else none

def emptyTasks : TaskStore := fun _ => none

def emptyUsers : UserStore := fun _ => none

def taskA : TaskRecord := ⟨"fix sink", "help", "u1", "", 5, .OPEN, 0, 0⟩

def taskA1 : TaskRecord :=
  { taskA with accepted_by_user_id := "u1", state := RequestState.PENDING, updated_at := 1 }

def sysA : Sys := ⟨fun k => if k = "t1" then some taskA else none, oneUserStore⟩

def taskDone : TaskRecord := ⟨"done", "d", "u1", "u2", 5, .COMPLETED, 0, 0⟩

def sysB : Sys := ⟨fun k => if k = "t2" then some taskDone else none, oneUserStore⟩

def taskP : TaskRecord := ⟨"paint", "d", "u1", "u2", 5, .PENDING, 0, 0⟩

def sysP : Sys := ⟨fun k => if k = "tp" then some taskP else none, twoUserStore⟩

def taskC : TaskRecord := ⟨"clean", "d", "u1", "u2", 5, .IN_PROGRESS, 0, 0⟩

def sysC : Sys := ⟨fun k => if k = "t3" then some taskC else none, twoUserStore⟩

/-! ## Helper lemmas -/

theorem transfer_self (store : UserStore) (u : String) (fu : UserRecord) (a : Int)
    (hu : store u = some fu) (hpos : 0 < a) (hle : a ≤ fu.time_credits) :
    transfer_credits store ⟨u, u, a⟩ = .ok
      (setUser (setUser store u { fu with time_credits := fu.time_credits - a }) u
        { fu with time_credits := fu.time_credits + a },
       ⟨⟨u, fu.time_credits - a⟩, ⟨u, fu.time_credits + a⟩⟩) := by
  simp only [transfer_credits, hu]
  rw [if_neg (by omega), if_neg (by omega)]

theorem update_task_ok (ts : TaskStore) (task_id : String) (upd : RequestUpdate)
    (now : Nat) (ts' : TaskStore) (t' : TaskRecord)
    (h : update_task ts task_id upd now = .ok (ts', t')) :
    ∃ t, ts task_id = some t ∧ t.state = .OPEN ∧ ts' = setTask ts task_id t' ∧
      t'.state = .OPEN ∧ t'.accepted_by_user_id = t.accepted_by_user_id ∧
      t'.requested_by_user_id = t.requested_by_user_id := by
  obtain ⟨title, descr, offer⟩ := upd
  unfold update_task at h
  split at h
  · simp at h
  · rename_i task_data htask
    split at h
    · simp at h
    · rename_i hstate
      rw [not_ne_iff] at hstate
      refine ⟨task_data, htask, hstate, ?_⟩
      cases title <;> cases descr <;> cases offer <;> dsimp only at h
      all_goals first
        | (simp only [Except.ok.injEq, Prod.mk.injEq] at h
           obtain ⟨h1, h2⟩ := h
           subst h2
           exact ⟨h1.symm, hstate, rfl, rfl⟩)
        | (split at h
           · simp at h
           · simp only [Except.ok.injEq, Prod.mk.injEq] at h
             obtain ⟨h1, h2⟩ := h
             subst h2
             exact ⟨h1.symm, hstate, rfl, rfl⟩)

theorem create_task_ok (ts : TaskStore) (us : UserStore) (req : RequestCreate)
    (task_id : String) (now : Nat) (ts' : TaskStore) (task : TaskRecord)
    (h : create_task ts us req task_id now = .ok (ts', task)) :
    0 < req.time_credit_offer ∧
    validateUserExists us req.requested_by_user_id = true ∧
    task = ⟨req.title, req.descr, req.requested_by_user_id, "",
      req.time_credit_offer, .OPEN, now, now⟩ ∧
    ts' = setTask ts task_id task := by
  unfold create_task at h
  split at h
  · simp at h
  · rename_i hoff
    split at h
    · simp at h
    · rename_i hex
      simp only [Except.ok.injEq, Prod.mk.injEq] at h
      obtain ⟨h1, h2⟩ := h
      exact ⟨by omega, not_not.mp hex, h2.symm, by rw [← h1, h2]⟩

theorem accept_task_ok (ts : TaskStore) (us : UserStore) (task_id acceptor : String)
    (now : Nat) (ts' : TaskStore) (t' : TaskRecord)
    (h : accept_task ts us task_id acceptor now = .ok (ts', t')) :
    ∃ t, ts task_id = some t ∧ t.state = .OPEN ∧
      validateUserExists us acceptor = true ∧
      t' = { t with accepted_by_user_id := acceptor, state := RequestState.PENDING, updated_at := now } ∧
      ts' = setTask ts task_id t' := by
  unfold accept_task at h
  split at h
  · simp at h
  · rename_i t htask
    split at h
    · simp at h
    · rename_i hstate
      split at h
      · simp at h
      · rename_i hex
        simp only [Except.ok.injEq, Prod.mk.injEq] at h
        obtain ⟨h1, h2⟩ := h
        exact ⟨t, htask, not_ne_iff.mp hstate, not_not.mp hex, h2.symm,
          by rw [← h1, h2]⟩

theorem start_task_ok (ts : TaskStore) (task_id caller : String) (now : Nat)
    (ts' : TaskStore) (t' : TaskRecord)
    (h : start_task ts task_id caller now = .ok (ts', t')) :
    ∃ t, ts task_id = some t ∧ t.state = .PENDING ∧
      caller = t.accepted_by_user_id ∧
      t' = { t with state := .IN_PROGRESS, updated_at := now } ∧
      ts' = setTask ts task_id t' := by
  unfold start_task at h
  split at h
  · simp at h
  · rename_i t htask
    split at h
    · simp at h
    · rename_i hstate
      split at h
      · simp at h
      · rename_i hcaller
        simp only [Except.ok.injEq, Prod.mk.injEq] at h
        obtain ⟨h1, h2⟩ := h
        exact ⟨t, htask, not_ne_iff.mp hstate, not_ne_iff.mp hcaller, h2.symm,
          by rw [← h1, h2]⟩

theorem complete_task_ok (ts : TaskStore) (us : UserStore) (transportOk : Bool)
    (task_id caller : String) (now : Nat)
    (ts' : TaskStore) (us' : UserStore) (t' : TaskRecord)
    (h : complete_task ts us transportOk task_id caller now = .ok (ts', us', t')) :
    ∃ t, ts task_id = some t ∧ t.state = .IN_PROGRESS ∧
      caller = t.accepted_by_user_id ∧
      transferCall transportOk us t.requested_by_user_id t.accepted_by_user_id
        t.time_credit_offer = (true, us') ∧
      t' = { t with state := .COMPLETED, updated_at := now } ∧
      ts' = setTask ts task_id t' := by
  unfold complete_task at h
  split at h
  · simp at h
  · rename_i t htask
    split at h
    · simp at h
    · rename_i hstate
      split at h
      · simp at h
      · rename_i hcaller
        split at h
        · simp at h
        · rename_i us₂ hcall
          simp only [Except.ok.injEq, Prod.mk.injEq] at h
          obtain ⟨h1, h2, h3⟩ := h
          refine ⟨t, htask, not_ne_iff.mp hstate, not_ne_iff.mp hcaller, ?_,
            h3.symm, by rw [← h1, h3]⟩
          rw [hcall, h2]

theorem cancel_task_ok (ts : TaskStore) (task_id caller : String) (now : Nat)
    (ts' : TaskStore) (t' : TaskRecord)
    (h : cancel_task ts task_id caller now = .ok (ts', t')) :
    ∃ t, ts task_id = some t ∧ (t.state = .OPEN ∨ t.state = .PENDING) ∧
      caller = t.requested_by_user_id ∧
      t' = { t with state := .CANCELLED, updated_at := now } ∧
      ts' = setTask ts task_id t' := by
  unfold cancel_task at h
  split at h
  · simp at h
  · rename_i t htask
    split at h
    · simp at h
    · rename_i hstate
      split at h
      · simp at h
      · rename_i hcaller
        simp only [Except.ok.injEq, Prod.mk.injEq] at h
        obtain ⟨h1, h2⟩ := h
        exact ⟨t, htask, not_not.mp hstate, not_ne_iff.mp hcaller, h2.symm,
          by rw [← h1, h2]⟩

theorem except_map_ok {α β γ : Type _} (f : α → β) (x : Except γ α) (b : β)
    (h : x.map f = .ok b) : ∃ a, x = .ok a ∧ b = f a := by
  cases x with
  | error e => simp [Except.map] at h
  | ok a => exact ⟨a, rfl, by simpa [Except.map] using h.symm⟩

theorem step_of_error (sys : Sys) (op : Op) (now : Nat) (e : ExchError)
    (h : applyOp sys op now = .error e) : step sys op now = sys := by
  unfold step
  rw [h]

theorem step_of_ok (sys : Sys) (op : Op) (now : Nat) (sys₂ : Sys)
    (h : applyOp sys op now = .ok sys₂) : step sys op now = sys₂ := by
  unfold step
  rw [h]

theorem applyOp_notFound (sys : Sys) (op : Op) (now : Nat) (id : String)
    (hid : opTargets op = some id) (habs : sys.tasks id = none) :
    applyOp sys op now = .error .NotFound := by
  cases op with
  | createT req newId => simp [opTargets] at hid
  | updateT tid upd =>
    injection hid with hid
    subst hid
    simp [applyOp, Except.map, update_task, habs]
  | acceptT tid acceptor =>
    injection hid with hid
    subst hid
    simp [applyOp, Except.map, accept_task, habs]
  | startT tid caller =>
    injection hid with hid
    subst hid
    simp [applyOp, Except.map, start_task, habs]
  | completeT tid caller transportOk =>
    injection hid with hid
    subst hid
    simp [applyOp, Except.map, complete_task, habs]
  | cancelT tid caller =>
    injection hid with hid
    subst hid
    simp [applyOp, Except.map, cancel_task, habs]

theorem applyOp_wrongState (sys : Sys) (op : Op) (now : Nat) (id : String)
    (t : TaskRecord) (hid : opTargets op = some id)
    (htask : sys.tasks id = some t) (hbad : stateOk op t.state = false) :
    applyOp sys op now = .error .InvalidStateTransition := by
  cases op with
  | createT req newId => simp [opTargets] at hid
  | updateT tid upd =>
    injection hid with hid
    subst hid
    simp only [stateOk, decide_eq_false_iff_not] at hbad
    simp [applyOp, Except.map, update_task, htask, hbad]
  | acceptT tid acceptor =>
    injection hid with hid
    subst hid
    simp only [stateOk, decide_eq_false_iff_not] at hbad
    simp [applyOp, Except.map, accept_task, htask, hbad]
  | startT tid caller =>
    injection hid with hid
    subst hid
    simp only [stateOk, decide_eq_false_iff_not] at hbad
    simp [applyOp, Except.map, start_task, htask, hbad]
  | completeT tid caller transportOk =>
    injection hid with hid
    subst hid
    simp only [stateOk, decide_eq_false_iff_not] at hbad
    simp [applyOp, Except.map, complete_task, htask, hbad]
  | cancelT tid caller =>
    injection hid with hid
    subst hid
    simp only [stateOk, decide_eq_false_iff_not] at hbad
    simp [applyOp, Except.map, cancel_task, htask, hbad]

theorem start_task_forbidden (ts : TaskStore) (task_id caller : String) (now : Nat)
    (t : TaskRecord) (htask : ts task_id = some t)
    (hstate : t.state = .PENDING) (hc : caller ≠ t.accepted_by_user_id) :
    start_task ts task_id caller now = .error .Forbidden := by
  simp [start_task, htask, hstate, hc]

theorem complete_task_forbidden (ts : TaskStore) (us : UserStore)
    (transportOk : Bool) (task_id caller : String) (now : Nat)
    (t : TaskRecord) (htask : ts task_id = some t)
    (hstate : t.state = .IN_PROGRESS) (hc : caller ≠ t.accepted_by_user_id) :
    complete_task ts us transportOk task_id caller now = .error .Forbidden := by
  simp [complete_task, htask, hstate, hc]

theorem cancel_task_forbidden (ts : TaskStore) (task_id caller : String) (now : Nat)
    (t : TaskRecord) (htask : ts task_id = some t)
    (hstate : t.state = .OPEN ∨ t.state = .PENDING)
    (hc : caller ≠ t.requested_by_user_id) :
    cancel_task ts task_id caller now = .error .Forbidden := by
  rcases hstate with hstate | hstate <;> simp [cancel_task, htask, hstate, hc]

theorem setTask_same (s : TaskStore) (task_id : String) (t : TaskRecord) :
    setTask s task_id t task_id = some t := by
  simp [setTask]

theorem setTask_other (s : TaskStore) (task_id : String) (t : TaskRecord)
    (k : String) (hk : k ≠ task_id) : setTask s task_id t k = s k := by
  simp [setTask, hk]

theorem step_task_change (sys : Sys) (op : Op) (now : Nat) (id : String)
    (t t' : TaskRecord) (hf : FreshCreate sys op)
    (h : sys.tasks id = some t) (h' : (step sys op now).tasks id = some t') :
    t' = t ∨
    (t.state = .OPEN ∧ t'.state = .OPEN ∧
      t'.accepted_by_user_id = t.accepted_by_user_id) ∨
    (t.state = .OPEN ∧ t'.state = .PENDING) ∨
    (t.state = .PENDING ∧ t'.state = .IN_PROGRESS ∧
      t'.accepted_by_user_id = t.accepted_by_user_id) ∨
    (t.state = .IN_PROGRESS ∧ t'.state = .COMPLETED ∧
      t'.accepted_by_user_id = t.accepted_by_user_id) ∨
    ((t.state = .OPEN ∨ t.state = .PENDING) ∧ t'.state = .CANCELLED ∧
      t'.accepted_by_user_id = t.accepted_by_user_id) := by
  rcases happ : applyOp sys op now with e | sys₂
  · rw [step_of_error sys op now e happ, h] at h'
    exact Or.inl (Option.some.inj h').symm
  · rw [step_of_ok sys op now sys₂ happ] at h'
    cases op with
    | createT req newId =>
      simp only [applyOp] at happ
      obtain ⟨⟨ts₂, task⟩, hok, hsys⟩ := except_map_ok _ _ _ happ
      obtain ⟨hoff, hex, htaskeq, hts⟩ := create_task_ok _ _ _ _ _ _ _ hok
      simp only [FreshCreate] at hf
      rw [hsys] at h'
      dsimp only at h'
      rw [hts] at h'
      by_cases hid : id = newId
      · subst hid
        rw [h] at hf
        exact Option.noConfusion hf
      · rw [setTask_other _ _ _ _ hid, h] at h'
        exact Or.inl (Option.some.inj h').symm
    | updateT tid upd =>
      simp only [applyOp] at happ
      obtain ⟨⟨ts₂, tnew⟩, hok, hsys⟩ := except_map_ok _ _ _ happ
      obtain ⟨t0, htask0, hopen, hts, hst', hacc, hreq⟩ :=
        update_task_ok _ _ _ _ _ _ hok
      rw [hsys] at h'
      dsimp only at h'
      rw [hts] at h'
      by_cases hid : id = tid
      · subst hid
        have ht0 : t0 = t := Option.some.inj (htask0.symm.trans h)
        rw [setTask_same] at h'
        obtain rfl := Option.some.inj h'
        exact Or.inr (Or.inl ⟨ht0 ▸ hopen, hst', ht0 ▸ hacc⟩)
      · rw [setTask_other _ _ _ _ hid, h] at h'
        exact Or.inl (Option.some.inj h').symm
    | acceptT tid acceptor =>
      simp only [applyOp] at happ
      obtain ⟨⟨ts₂, tnew⟩, hok, hsys⟩ := except_map_ok _ _ _ happ
      obtain ⟨t0, htask0, hopen, hex, htp, hts⟩ := accept_task_ok _ _ _ _ _ _ _ hok
      rw [hsys] at h'
      dsimp only at h'
      rw [hts] at h'
      by_cases hid : id = tid
      · subst hid
        have ht0 : t0 = t := Option.some.inj (htask0.symm.trans h)
        rw [setTask_same] at h'
        obtain rfl := Option.some.inj h'
        subst htp
        exact Or.inr (Or.inr (Or.inl ⟨ht0 ▸ hopen, rfl⟩))
      · rw [setTask_other _ _ _ _ hid, h] at h'
        exact Or.inl (Option.some.inj h').symm
    | startT tid caller =>
      simp only [applyOp] at happ
      obtain ⟨⟨ts₂, tnew⟩, hok, hsys⟩ := except_map_ok _ _ _ happ
      obtain ⟨t0, htask0, hpend, hcaller, htp, hts⟩ := start_task_ok _ _ _ _ _ _ hok
      rw [hsys] at h'
      dsimp only at h'
      rw [hts] at h'
      by_cases hid : id = tid
      · subst hid
        have ht0 : t0 = t := Option.some.inj (htask0.symm.trans h)
        rw [setTask_same] at h'
        obtain rfl := Option.some.inj h'
        subst htp
        subst ht0
        exact Or.inr (Or.inr (Or.inr (Or.inl ⟨hpend, rfl, rfl⟩)))
      · rw [setTask_other _ _ _ _ hid, h] at h'
        exact Or.inl (Option.some.inj h').symm
    | completeT tid caller transportOk =>
      simp only [applyOp] at happ
      obtain ⟨⟨ts₂, us₂, tnew⟩, hok, hsys⟩ := except_map_ok _ _ _ happ
      obtain ⟨t0, htask0, hprog, hcaller, hcall, htp, hts⟩ :=
        complete_task_ok _ _ _ _ _ _ _ _ _ hok
      rw [hsys] at h'
      dsimp only at h'
      rw [hts] at h'
      by_cases hid : id = tid
      · subst hid
        have ht0 : t0 = t := Option.some.inj (htask0.symm.trans h)
        rw [setTask_same] at h'
        obtain rfl := Option.some.inj h'
        subst htp
        subst ht0
        exact Or.inr (Or.inr (Or.inr (Or.inr (Or.inl ⟨hprog, rfl, rfl⟩))))
      · rw [setTask_other _ _ _ _ hid, h] at h'
        exact Or.inl (Option.some.inj h').symm
    | cancelT tid caller =>
      simp only [applyOp] at happ
      obtain ⟨⟨ts₂, tnew⟩, hok, hsys⟩ := except_map_ok _ _ _ happ
      obtain ⟨t0, htask0, hlive, hcaller, htp, hts⟩ := cancel_task_ok _ _ _ _ _ _ hok
      rw [hsys] at h'
      dsimp only at h'
      rw [hts] at h'
      by_cases hid : id = tid
      · subst hid
        have ht0 : t0 = t := Option.some.inj (htask0.symm.trans h)
        rw [setTask_same] at h'
        obtain rfl := Option.some.inj h'
        subst htp
        subst ht0
        exact Or.inr (Or.inr (Or.inr (Or.inr (Or.inr ⟨hlive, rfl, rfl⟩))))
      · rw [setTask_other _ _ _ _ hid, h] at h'
        exact Or.inl (Option.some.inj h').symm

theorem step_tasks_cases (sys : Sys) (op : Op) (now : Nat) (k : String) :
    (step sys op now).tasks k = sys.tasks k ∨
    ∃ tn, (step sys op now).tasks k = some tn := by
  rcases happ : applyOp sys op now with e | sys₂
  · rw [step_of_error sys op now e happ]
    exact Or.inl rfl
  · rw [step_of_ok sys op now sys₂ happ]
    cases op with
    | createT req newId =>
      simp only [applyOp] at happ
      obtain ⟨⟨ts₂, task⟩, hok, hsys⟩ := except_map_ok _ _ _ happ
      obtain ⟨-, -, -, hts⟩ := create_task_ok _ _ _ _ _ _ _ hok
      rw [hsys]
      dsimp only
      rw [hts]
      by_cases hk : k = newId
      · subst hk
        exact Or.inr ⟨task, setTask_same _ _ _⟩
      · exact Or.inl (setTask_other _ _ _ _ hk)
    | updateT tid upd =>
      simp only [applyOp] at happ
      obtain ⟨⟨ts₂, tnew⟩, hok, hsys⟩ := except_map_ok _ _ _ happ
      obtain ⟨t0, -, -, hts, -⟩ := update_task_ok _ _ _ _ _ _ hok
      rw [hsys]
      dsimp only
      rw [hts]
      by_cases hk : k = tid
      · subst hk
        exact Or.inr ⟨tnew, setTask_same _ _ _⟩
      · exact Or.inl (setTask_other _ _ _ _ hk)
    | acceptT tid acceptor =>
      simp only [applyOp] at happ
      obtain ⟨⟨ts₂, tnew⟩, hok, hsys⟩ := except_map_ok _ _ _ happ
      obtain ⟨t0, -, -, -, -, hts⟩ := accept_task_ok _ _ _ _ _ _ _ hok
      rw [hsys]
      dsimp only
      rw [hts]
      by_cases hk : k = tid
      · subst hk
        exact Or.inr ⟨tnew, setTask_same _ _ _⟩
      · exact Or.inl (setTask_other _ _ _ _ hk)
    | startT tid caller =>
      simp only [applyOp] at happ
      obtain ⟨⟨ts₂, tnew⟩, hok, hsys⟩ := except_map_ok _ _ _ happ
      obtain ⟨t0, -, -, -, -, hts⟩ := start_task_ok _ _ _ _ _ _ hok
      rw [hsys]
      dsimp only
      rw [hts]
      by_cases hk : k = tid
      · subst hk
        exact Or.inr ⟨tnew, setTask_same _ _ _⟩
      · exact Or.inl (setTask_other _ _ _ _ hk)
    | completeT tid caller transportOk =>
      simp only [applyOp] at happ
      obtain ⟨⟨ts₂, us₂, tnew⟩, hok, hsys⟩ := except_map_ok _ _ _ happ
      obtain ⟨t0, -, -, -, -, -, hts⟩ := complete_task_ok _ _ _ _ _ _ _ _ _ hok
      rw [hsys]
      dsimp only
      rw [hts]
      by_cases hk : k = tid
      · subst hk
        exact Or.inr ⟨tnew, setTask_same _ _ _⟩
      · exact Or.inl (setTask_other _ _ _ _ hk)
    | cancelT tid caller =>
      simp only [applyOp] at happ
      obtain ⟨⟨ts₂, tnew⟩, hok, hsys⟩ := except_map_ok _ _ _ happ
      obtain ⟨t0, -, -, -, -, hts⟩ := cancel_task_ok _ _ _ _ _ _ hok
      rw [hsys]
      dsimp only
      rw [hts]
      by_cases hk : k = tid
      · subst hk
        exact Or.inr ⟨tnew, setTask_same _ _ _⟩
      · exact Or.inl (setTask_other _ _ _ _ hk)

theorem step_openUnset (sys : Sys) (op : Op) (now : Nat)
    (hinv : OpenUnset sys) : OpenUnset (step sys op now) := by
  intro id t' h' hopen'
  rcases happ : applyOp sys op now with e | sys₂
  · rw [step_of_error sys op now e happ] at h'
    exact hinv id t' h' hopen'
  · rw [step_of_ok sys op now sys₂ happ] at h'
    cases op with
    | createT req newId =>
      simp only [applyOp] at happ
      obtain ⟨⟨ts₂, task⟩, hok, hsys⟩ := except_map_ok _ _ _ happ
      obtain ⟨-, -, htaskeq, hts⟩ := create_task_ok _ _ _ _ _ _ _ hok
      rw [hsys] at h'
      dsimp only at h'
      rw [hts] at h'
      by_cases hk : id = newId
      · subst hk
        rw [setTask_same] at h'
        obtain rfl := Option.some.inj h'
        rw [htaskeq]
      · rw [setTask_other _ _ _ _ hk] at h'
        exact hinv id t' h' hopen'
    | updateT tid upd =>
      simp only [applyOp] at happ
      obtain ⟨⟨ts₂, tnew⟩, hok, hsys⟩ := except_map_ok _ _ _ happ
      obtain ⟨t0, htask0, hopen0, hts, -, hacc, -⟩ := update_task_ok _ _ _ _ _ _ hok
      rw [hsys] at h'
      dsimp only at h'
      rw [hts] at h'
      by_cases hk : id = tid
      · subst hk
        rw [setTask_same] at h'
        obtain rfl := Option.some.inj h'
        rw [hacc]
        exact hinv _ t0 htask0 hopen0
      · rw [setTask_other _ _ _ _ hk] at h'
        exact hinv id t' h' hopen'
    | acceptT tid acceptor =>
      simp only [applyOp] at happ
      obtain ⟨⟨ts₂, tnew⟩, hok, hsys⟩ := except_map_ok _ _ _ happ
      obtain ⟨t0, htask0, hopen0, -, htp, hts⟩ := accept_task_ok _ _ _ _ _ _ _ hok
      rw [hsys] at h'
      dsimp only at h'
      rw [hts] at h'
      by_cases hk : id = tid
      · subst hk
        rw [setTask_same] at h'
        obtain rfl := Option.some.inj h'
        subst htp
        exact absurd hopen' (by simp)
      · rw [setTask_other _ _ _ _ hk] at h'
        exact hinv id t' h' hopen'
    | startT tid caller =>
      simp only [applyOp] at happ
      obtain ⟨⟨ts₂, tnew⟩, hok, hsys⟩ := except_map_ok _ _ _ happ
      obtain ⟨t0, htask0, -, -, htp, hts⟩ := start_task_ok _ _ _ _ _ _ hok
      rw [hsys] at h'
      dsimp only at h'
      rw [hts] at h'
      by_cases hk : id = tid
      · subst hk
        rw [setTask_same] at h'
        obtain rfl := Option.some.inj h'
        subst htp
        exact absurd hopen' (by simp)
      · rw [setTask_other _ _ _ _ hk] at h'
        exact hinv id t' h' hopen'
    | completeT tid caller transportOk =>
      simp only [applyOp] at happ
      obtain ⟨⟨ts₂, us₂, tnew⟩, hok, hsys⟩ := except_map_ok _ _ _ happ
      obtain ⟨t0, htask0, -, -, -, htp, hts⟩ := complete_task_ok _ _ _ _ _ _ _ _ _ hok
      rw [hsys] at h'
      dsimp only at h'
      rw [hts] at h'
      by_cases hk : id = tid
      · subst hk
        rw [setTask_same] at h'
        obtain rfl := Option.some.inj h'
        subst htp
        exact absurd hopen' (by simp)
      · rw [setTask_other _ _ _ _ hk] at h'
        exact hinv id t' h' hopen'
    | cancelT tid caller =>
      simp only [applyOp] at happ
      obtain ⟨⟨ts₂, tnew⟩, hok, hsys⟩ := except_map_ok _ _ _ happ
      obtain ⟨t0, htask0, -, -, htp, hts⟩ := cancel_task_ok _ _ _ _ _ _ hok
      rw [hsys] at h'
      dsimp only at h'
      rw [hts] at h'
      by_cases hk : id = tid
      · subst hk
        rw [setTask_same] at h'
        obtain rfl := Option.some.inj h'
        subst htp
        exact absurd hopen' (by simp)
      · rw [setTask_other _ _ _ _ hk] at h'
        exact hinv id t' h' hopen'

theorem runOps_terminal (ops : List (Op × Nat)) :
    ∀ (sys : Sys) (id : String) (t : TaskRecord),
    WfTrace sys ops → sys.tasks id = some t →
    (t.state = RequestState.COMPLETED ∨ t.state = RequestState.CANCELLED) →
    (runOps sys ops).tasks id = some t := by
  induction ops with
  | nil =>
    intro sys id t _ h _
    exact h
  | cons p rest ih =>
    obtain ⟨op, now⟩ := p
    intro sys id t hwf h hterm
    obtain ⟨hf, hwf'⟩ := hwf
    have hstep : (step sys op now).tasks id = some t := by
      rcases step_tasks_cases sys op now id with hc | ⟨tn, hc⟩
      · exact hc.trans h
      · rcases step_task_change sys op now id t tn hf h hc with
          rfl | ⟨h1, -⟩ | ⟨h1, -⟩ | ⟨h1, -⟩ | ⟨h1, -⟩ | ⟨h1, -⟩
        · exact hc
        all_goals rcases hterm with ht | ht <;> simp [ht] at h1
    simp only [runOps]
    exact ih (step sys op now) id t hwf' hstep hterm

theorem runOps_accepted_stable (ops : List (Op × Nat)) :
    ∀ (sys : Sys) (id : String) (t t' : TaskRecord),
    WfTrace sys ops → OpenUnset sys → sys.tasks id = some t →
    t.accepted_by_user_id ≠ "" →
    (runOps sys ops).tasks id = some t' →
    t'.accepted_by_user_id = t.accepted_by_user_id := by
  induction ops with
  | nil =>
    intro sys id t t' _ _ h hne h'
    simp only [runOps] at h'
    rw [h] at h'
    rw [Option.some.inj h']
  | cons p rest ih =>
    obtain ⟨op, now⟩ := p
    intro sys id t t' hwf hinv h hne h'
    obtain ⟨hf, hwf'⟩ := hwf
    simp only [runOps] at h'
    rcases step_tasks_cases sys op now id with hc | ⟨tn, hc⟩
    · exact ih (step sys op now) id t t' hwf' (step_openUnset _ _ _ hinv)
        (hc.trans h) hne h'
    · have hacc : tn.accepted_by_user_id = t.accepted_by_user_id := by
        rcases step_task_change sys op now id t tn hf h hc with
          rfl | ⟨-, -, ha⟩ | ⟨hopen, -⟩ | ⟨-, -, ha⟩ | ⟨-, -, ha⟩ | ⟨-, -, ha⟩
        · rfl
        · exact ha
        · exact absurd (hinv id t h hopen) hne
        · exact ha
        · exact ha
        · exact ha
      have hfin := ih (step sys op now) id tn t' hwf' (step_openUnset _ _ _ hinv)
        hc (by rw [hacc]; exact hne) h'
      rw [hfin, hacc]

/-! ## The claims -/

/-- Claim C3: if the transfer call made by `complete_task` does not succeed —
insufficient funds, missing user, or any transport failure (`transportOk =
false`) — then the endpoint raises `TransferFailed` and the whole system
state, in particular the stored task with its `IN_PROGRESS` state and every
other field, is exactly as before the call. -/
theorem complete_transfer_failure_atomic (sys : Sys) (id caller : String)
    (transportOk : Bool) (now : Nat) (t : TaskRecord)
    (htask : sys.tasks id = some t)
    (hstate : t.state = RequestState.IN_PROGRESS)
    (hcaller : caller = t.accepted_by_user_id)
    (hfail : (transferCall transportOk sys.users t.requested_by_user_id
      t.accepted_by_user_id t.time_credit_offer).1 = false) :
    applyOp sys (.completeT id caller transportOk) now = .error .TransferFailed ∧
    step sys (.completeT id caller transportOk) now = sys := by
  rcases hcall : transferCall transportOk sys.users t.requested_by_user_id
    t.accepted_by_user_id t.time_credit_offer with ⟨b, us₂⟩
  rw [hcall] at hfail
  dsimp only at hfail
  subst hfail
  have herr : complete_task sys.tasks sys.users transportOk id caller now
      = .error .TransferFailed := by
    simp [complete_task, htask, hstate, hcaller, hcall]
  have happ : applyOp sys (.completeT id caller transportOk) now
      = .error .TransferFailed := by
    simp [applyOp, herr, Except.map]
  exact ⟨happ, step_of_error _ _ _ _ happ⟩

/-- Claim C6: any lifecycle operation on an existing task (`update`,
`accept`, `start`, `complete`, `cancel`) invoked while the task's current
state fails the operation's state precondition raises
`InvalidStateTransition`, and the step leaves the whole system — hence the
stored task record, every field including `updated_at` — byte-for-byte
unchanged. -/
theorem wrong_state_rejected (sys : Sys) (op : Op) (now : Nat) (id : String)
    (t : TaskRecord) (hid : opTargets op = some id)
    (htask : sys.tasks id = some t) (hbad : stateOk op t.state = false) :
    applyOp sys op now = .error .InvalidStateTransition ∧ step sys op now = sys :=
  have h := applyOp_wrongState sys op now id t hid htask hbad
  ⟨h, step_of_error _ _ _ _ h⟩

/-- Claim C7: with the task in the required state, `start` and `complete`
raise `Forbidden` for every caller other than the stored
`accepted_by_user_id`, and `cancel` raises `Forbidden` for every caller
other than the stored `requested_by_user_id`; in each case the step leaves
the system unchanged. -/
theorem authorization_guards :
    (∀ (sys : Sys) (id caller : String) (now : Nat) (t : TaskRecord),
      sys.tasks id = some t → t.state = RequestState.PENDING →
      caller ≠ t.accepted_by_user_id →
      applyOp sys (.startT id caller) now = .error .Forbidden ∧
      step sys (.startT id caller) now = sys) ∧
    (∀ (sys : Sys) (id caller : String) (transportOk : Bool) (now : Nat)
      (t : TaskRecord),
      sys.tasks id = some t → t.state = RequestState.IN_PROGRESS →
      caller ≠ t.accepted_by_user_id →
      applyOp sys (.completeT id caller transportOk) now = .error .Forbidden ∧
      step sys (.completeT id caller transportOk) now = sys) ∧
    (∀ (sys : Sys) (id caller : String) (now : Nat) (t : TaskRecord),
      sys.tasks id = some t →
      (t.state = RequestState.OPEN ∨ t.state = RequestState.PENDING) →
      caller ≠ t.requested_by_user_id →
      applyOp sys (.cancelT id caller) now = .error .Forbidden ∧
      step sys (.cancelT id caller) now = sys) := by
  refine ⟨?_, ?_, ?_⟩
  · intro sys id caller now t htask hstate hc
    have happ : applyOp sys (.startT id caller) now = .error .Forbidden := by
      simp [applyOp, start_task_forbidden sys.tasks id caller now t htask hstate hc,
        Except.map]
    exact ⟨happ, step_of_error _ _ _ _ happ⟩
  · intro sys id caller transportOk now t htask hstate hc
    have happ : applyOp sys (.completeT id caller transportOk) now
        = .error .Forbidden := by
      simp [applyOp, complete_task_forbidden sys.tasks sys.users transportOk id
        caller now t htask hstate hc, Except.map]
    exact ⟨happ, step_of_error _ _ _ _ happ⟩
  · intro sys id caller now t htask hstate hc
    have happ : applyOp sys (.cancelT id caller) now = .error .Forbidden := by
      simp [applyOp, cancel_task_forbidden sys.tasks id caller now t htask hstate hc,
        Except.map]
    exact ⟨happ, step_of_error _ _ _ _ happ⟩

/-- Claim C2 (amended): for `update`, `accept`, `start`, `complete` and
`cancel` the earliest failing check decides the error in the order
existence → state precondition → actor authorization → domain validation;
`create_task`, however, validates the offer before requester existence, so
a nonexistent requester together with a non-positive offer yields
`BadRequest`, not `UserNotFound`. -/
theorem guard_order :
    (∀ (ts : TaskStore) (us : UserStore) (req : RequestCreate)
      (task_id : String) (now : Nat),
      req.time_credit_offer ≤ 0 →
      create_task ts us req task_id now = .error .BadRequest) ∧
    (∀ (ts : TaskStore) (us : UserStore) (req : RequestCreate)
      (task_id : String) (now : Nat),
      0 < req.time_credit_offer → us req.requested_by_user_id = none →
      create_task ts us req task_id now = .error .UserNotFound) ∧
    (∀ (sys : Sys) (op : Op) (now : Nat) (id : String),
      opTargets op = some id → sys.tasks id = none →
      applyOp sys op now = .error .NotFound) ∧
    (∀ (sys : Sys) (op : Op) (now : Nat) (id : String) (t : TaskRecord),
      opTargets op = some id → sys.tasks id = some t →
      stateOk op t.state = false →
      applyOp sys op now = .error .InvalidStateTransition) ∧
    (∀ (ts : TaskStore) (us : UserStore) (transportOk : Bool)
      (task_id caller : String) (now : Nat) (t : TaskRecord),
      ts task_id = some t → t.state = RequestState.IN_PROGRESS →
      caller ≠ t.accepted_by_user_id →
      complete_task ts us transportOk task_id caller now = .error .Forbidden) ∧
    (∀ (ts : TaskStore) (task_id : String) (upd : RequestUpdate) (now : Nat)
      (t : TaskRecord) (v : Int),
      ts task_id = some t → t.state = RequestState.OPEN →
      upd.time_credit_offer = some v → v ≤ 0 →
      update_task ts task_id upd now = .error .BadRequest) := by
  refine ⟨?_, ?_, ?_, ?_, ?_, ?_⟩
  · intro ts us req task_id now h
    simp [create_task, h]
  · intro ts us req task_id now hpos hnone
    have : ¬ req.time_credit_offer ≤ 0 := by omega
    simp [create_task, this, validateUserExists, hnone]
  · exact fun sys op now id => applyOp_notFound sys op now id
  · exact fun sys op now id t => applyOp_wrongState sys op now id t
  · exact fun ts us transportOk task_id caller now t htask hstate hc =>
      complete_task_forbidden ts us transportOk task_id caller now t htask hstate hc
  · intro ts task_id upd now t v htask hstate hoff hv
    simp [update_task, htask, hstate, hoff, hv]

/-- Claim C4: a single lifecycle step either leaves a stored task's state
unchanged or moves it along one of the edges OPEN→PENDING,
PENDING→IN_PROGRESS, IN_PROGRESS→COMPLETED, OPEN/PENDING→CANCELLED; and
over any trace of requests (with fresh create uuids) a task that is
`COMPLETED` or `CANCELLED` stays exactly as it is — the terminal states are
never left. -/
theorem task_state_machine :
    (∀ (sys : Sys) (op : Op) (now : Nat) (id : String) (t t' : TaskRecord),
      FreshCreate sys op → sys.tasks id = some t →
      (step sys op now).tasks id = some t' →
      t'.state = t.state ∨ allowedEdge t.state t'.state) ∧
    (∀ (ops : List (Op × Nat)) (sys : Sys) (id : String) (t : TaskRecord),
      WfTrace sys ops → sys.tasks id = some t →
      (t.state = RequestState.COMPLETED ∨ t.state = RequestState.CANCELLED) →
      (runOps sys ops).tasks id = some t) := by
  constructor
  · intro sys op now id t t' hf h h'
    rcases step_task_change sys op now id t t' hf h h' with
      rfl | ⟨h1, h2, -⟩ | ⟨h1, h2⟩ | ⟨h1, h2, -⟩ | ⟨h1, h2, -⟩ | ⟨h1, h2, -⟩
    · exact Or.inl rfl
    · exact Or.inl (h2.trans h1.symm)
    · exact Or.inr (Or.inl ⟨h1, h2⟩)
    · exact Or.inr (Or.inr (Or.inl ⟨h1, h2⟩))
    · exact Or.inr (Or.inr (Or.inr (Or.inl ⟨h1, h2⟩)))
    · exact Or.inr (Or.inr (Or.inr (Or.inr ⟨h1, h2⟩)))
  · exact fun ops => runOps_terminal ops

/-- Claim C8: `accepted_by_user_id` is the empty string on creation; a step
changes it only on a successful accept of an `OPEN` task whose acceptor
field is still unset, moving the task to `PENDING`; and once it is
non-empty no trace of further operations ever changes it, so it is set at
most once. -/
theorem accepted_by_set_once :
    (∀ (ts : TaskStore) (us : UserStore) (req : RequestCreate)
      (task_id : String) (now : Nat) (ts' : TaskStore) (task : TaskRecord),
      create_task ts us req task_id now = .ok (ts', task) →
      task.accepted_by_user_id = "" ∧ task.state = RequestState.OPEN) ∧
    (∀ (sys : Sys) (op : Op) (now : Nat) (id : String) (t t' : TaskRecord),
      OpenUnset sys → FreshCreate sys op → sys.tasks id = some t →
      (step sys op now).tasks id = some t' →
      t'.accepted_by_user_id ≠ t.accepted_by_user_id →
      t.state = RequestState.OPEN ∧ t.accepted_by_user_id = "" ∧
        t'.state = RequestState.PENDING) ∧
    (∀ (ops : List (Op × Nat)) (sys : Sys) (id : String) (t t' : TaskRecord),
      WfTrace sys ops → OpenUnset sys → sys.tasks id = some t →
      t.accepted_by_user_id ≠ "" →
      (runOps sys ops).tasks id = some t' →
      t'.accepted_by_user_id = t.accepted_by_user_id) := by
  refine ⟨?_, ?_, fun ops => runOps_accepted_stable ops⟩
  · intro ts us req task_id now ts' task h
    obtain ⟨-, -, htaskeq, -⟩ := create_task_ok _ _ _ _ _ _ _ h
    rw [htaskeq]
    exact ⟨rfl, rfl⟩
  · intro sys op now id t t' hinv hf h h' hne
    rcases step_task_change sys op now id t t' hf h h' with
      rfl | ⟨-, -, ha⟩ | ⟨hopen, hpend⟩ | ⟨-, -, ha⟩ | ⟨-, -, ha⟩ | ⟨-, -, ha⟩
    · exact absurd rfl hne
    · exact absurd ha hne
    · exact ⟨hopen, hinv id t h hopen, hpend⟩
    · exact absurd ha hne
    · exact absurd ha hne
    · exact absurd ha hne

/-- Claim C9: `accept_task` places no constraint relating the acceptor to
the requester: an `OPEN` task may be accepted by its own requester
(provided that user exists), and that same user can then start and
complete the task, ending with the task `COMPLETED`. -/
theorem self_accept_allowed (sys : Sys) (id : String) (t : TaskRecord)
    (ru : UserRecord) (n1 n2 n3 : Nat)
    (htask : sys.tasks id = some t) (hopen : t.state = RequestState.OPEN)
    (huser : sys.users t.requested_by_user_id = some ru)
    (hpos : 0 < t.time_credit_offer)
    (hbal : t.time_credit_offer ≤ ru.time_credits) :
    ∃ sys₁ t₁, applyOp sys (.acceptT id t.requested_by_user_id) n1 = .ok sys₁ ∧
      sys₁.tasks id = some t₁ ∧
      t₁.accepted_by_user_id = t.requested_by_user_id ∧
      t₁.requested_by_user_id = t.requested_by_user_id ∧
      t₁.state = RequestState.PENDING ∧
      ∃ t₃, (runOps sys [(.acceptT id t.requested_by_user_id, n1),
          (.startT id t.requested_by_user_id, n2),
          (.completeT id t.requested_by_user_id true, n3)]).tasks id = some t₃ ∧
        t₃.state = RequestState.COMPLETED := by
  obtain ⟨title, dsc, reqid, accid, offer, st, ca, ua⟩ := t
  dsimp only at htask hopen huser hpos hbal ⊢
  subst hopen
  have h1 : applyOp sys (.acceptT id reqid) n1 = .ok
      (⟨setTask sys.tasks id ⟨title, dsc, reqid, reqid, offer, .PENDING, ca, n1⟩,
        sys.users⟩ : Sys) := by
    have hacc : accept_task sys.tasks sys.users id reqid n1 = .ok
        (setTask sys.tasks id ⟨title, dsc, reqid, reqid, offer, .PENDING, ca, n1⟩,
         ⟨title, dsc, reqid, reqid, offer, .PENDING, ca, n1⟩) := by
      simp [accept_task, htask, validateUserExists, huser]
    simp [applyOp, hacc, Except.map]
  have h2 : applyOp (⟨setTask sys.tasks id
        ⟨title, dsc, reqid, reqid, offer, .PENDING, ca, n1⟩, sys.users⟩ : Sys)
      (.startT id reqid) n2 = .ok
      (⟨setTask (setTask sys.tasks id ⟨title, dsc, reqid, reqid, offer, .PENDING, ca, n1⟩)
          id ⟨title, dsc, reqid, reqid, offer, .IN_PROGRESS, ca, n2⟩, sys.users⟩ : Sys) := by
    have hst : start_task (setTask sys.tasks id
        ⟨title, dsc, reqid, reqid, offer, .PENDING, ca, n1⟩) id reqid n2 = .ok
        (setTask (setTask sys.tasks id ⟨title, dsc, reqid, reqid, offer, .PENDING, ca, n1⟩)
          id ⟨title, dsc, reqid, reqid, offer, .IN_PROGRESS, ca, n2⟩,
         ⟨title, dsc, reqid, reqid, offer, .IN_PROGRESS, ca, n2⟩) := by
      simp [start_task, setTask_same]
    simp [applyOp, hst, Except.map]
  have htr := transfer_self sys.users reqid ru offer huser hpos hbal
  have h3 : applyOp (⟨setTask (setTask sys.tasks id
        ⟨title, dsc, reqid, reqid, offer, .PENDING, ca, n1⟩)
        id ⟨title, dsc, reqid, reqid, offer, .IN_PROGRESS, ca, n2⟩, sys.users⟩ : Sys)
      (.completeT id reqid true) n3 = .ok
      (⟨setTask (setTask (setTask sys.tasks id
            ⟨title, dsc, reqid, reqid, offer, .PENDING, ca, n1⟩)
            id ⟨title, dsc, reqid, reqid, offer, .IN_PROGRESS, ca, n2⟩)
          id ⟨title, dsc, reqid, reqid, offer, .COMPLETED, ca, n3⟩,
        setUser (setUser sys.users reqid
            { ru with time_credits := ru.time_credits - offer }) reqid
          { ru with time_credits := ru.time_credits + offer }⟩ : Sys) := by
    have hcall : transferCall true sys.users reqid reqid offer =
        (true, setUser (setUser sys.users reqid
            { ru with time_credits := ru.time_credits - offer }) reqid
          { ru with time_credits := ru.time_credits + offer }) := by
      simp [transferCall, htr]
    have hcmp : complete_task (setTask (setTask sys.tasks id
          ⟨title, dsc, reqid, reqid, offer, .PENDING, ca, n1⟩)
          id ⟨title, dsc, reqid, reqid, offer, .IN_PROGRESS, ca, n2⟩)
        sys.users true id reqid n3 = .ok
        (setTask (setTask (setTask sys.tasks id
            ⟨title, dsc, reqid, reqid, offer, .PENDING, ca, n1⟩)
            id ⟨title, dsc, reqid, reqid, offer, .IN_PROGRESS, ca, n2⟩)
          id ⟨title, dsc, reqid, reqid, offer, .COMPLETED, ca, n3⟩,
         setUser (setUser sys.users reqid
            { ru with time_credits := ru.time_credits - offer }) reqid
          { ru with time_credits := ru.time_credits + offer },
         ⟨title, dsc, reqid, reqid, offer, .COMPLETED, ca, n3⟩) := by
      simp [complete_task, setTask_same, hcall]
    simp [applyOp, hcmp, Except.map]
  refine ⟨_, _, h1, setTask_same _ _ _, rfl, rfl, rfl,
    ⟨title, dsc, reqid, reqid, offer, .COMPLETED, ca, n3⟩, ?_, rfl⟩
  have hrun : runOps sys [(.acceptT id reqid, n1), (.startT id reqid, n2),
      (.completeT id reqid true, n3)] =
      (⟨setTask (setTask (setTask sys.tasks id
            ⟨title, dsc, reqid, reqid, offer, .PENDING, ca, n1⟩)
            id ⟨title, dsc, reqid, reqid, offer, .IN_PROGRESS, ca, n2⟩)
          id ⟨title, dsc, reqid, reqid, offer, .COMPLETED, ca, n3⟩,
        setUser (setUser sys.users reqid
            { ru with time_credits := ru.time_credits - offer }) reqid
          { ru with time_credits := ru.time_credits + offer }⟩ : Sys) := by
    simp only [runOps, step_of_ok _ _ _ _ h1, step_of_ok _ _ _ _ h2,
      step_of_ok _ _ _ _ h3]
  rw [hrun]
  exact setTask_same _ _ _

/-- Claim C1 (amended): for every successful transfer with distinct
parties — including the one `complete_task` makes with amount
`time_credit_offer`, shown by the second conjunct to go through
`transfer_credits` — the receiver's stored balance grows by exactly
`amount`, the sender's shrinks by it, and their sum is conserved.  When
`from = to` the second write overwrites the first and the single stored
balance grows by `amount` (see the counterexample and claim C10). -/
theorem transfer_conservation :
    (∀ (store : UserStore) (transfer : TransferRequest) (store' : UserStore)
        (resp : TransferResponse),
        transfer_credits store transfer = .ok (store', resp) →
        transfer.from_user_id ≠ transfer.to_user_id →
        ∃ fu tu, store transfer.from_user_id = some fu ∧
          store transfer.to_user_id = some tu ∧
          storedCredits store' transfer.from_user_id
            = some (fu.time_credits - transfer.amount) ∧
          storedCredits store' transfer.to_user_id
            = some (tu.time_credits + transfer.amount) ∧
          (fu.time_credits - transfer.amount) + (tu.time_credits + transfer.amount) =
            fu.time_credits + tu.time_credits) ∧
    (∀ (ts : TaskStore) (us : UserStore) (id caller : String) (now : Nat)
        (ts' : TaskStore) (us' : UserStore) (t' : TaskRecord),
        complete_task ts us true id caller now = .ok (ts', us', t') →
        ∃ t resp, ts id = some t ∧
          transfer_credits us
              ⟨t.requested_by_user_id, t.accepted_by_user_id, t.time_credit_offer⟩
            = .ok (us', resp)) := by
  constructor
  · intro store transfer store' resp hok hne
    unfold transfer_credits at hok
    split at hok
    · simp at hok
    · split at hok
      · simp at hok
      · rename_i from_user_data hfrom
        split at hok
        · simp at hok
        · rename_i to_user_data hto
          dsimp only at hok
          split at hok
          · simp at hok
          · rename_i hfunds
            simp only [Except.ok.injEq, Prod.mk.injEq] at hok
            obtain ⟨hstore, hresp⟩ := hok
            refine ⟨from_user_data, to_user_data, hfrom, hto, ?_, ?_, by ring⟩
            · simp [← hstore, storedCredits, setUser, hne]
            · simp [← hstore, storedCredits, setUser]
  · intro ts us id caller now ts' us' t' hok
    unfold complete_task at hok
    split at hok
    · simp at hok
    · rename_i task_data htask
      split at hok
      · simp at hok
      · split at hok
        · simp at hok
        · split at hok
          · simp at hok
          · rename_i us'' hcall
            simp only [Except.ok.injEq, Prod.mk.injEq] at hok
            obtain ⟨-, husers, -⟩ := hok
            refine ⟨task_data, ?_⟩
            unfold transferCall at hcall
            split at hcall
            · split at hcall
              · rename_i us₃ resp hcred
                simp only [Prod.mk.injEq] at hcall
                exact ⟨resp, htask, by rw [hcred, hcall.2, husers]⟩
              · simp at hcall
            · simp at hcall

/-- Claim C5 (amended): `transfer_credits` fails with `badRequest` iff the
amount is non-positive; otherwise with a user-not-found error iff `from` or
`to` has no record; otherwise with `insufficientFunds` iff the sender's
balance is below the amount; otherwise it succeeds, returning sender
balance `old − amount` and receiver balance `old + amount` — which are the
post-transfer stored balances whenever `from ≠ to`, while for `from = to`
the stored balance is `old + amount` and the returned from-balance is not
the stored one.  Every failure leaves the store untouched. -/
theorem transfer_credits_cases (store : UserStore) (transfer : TransferRequest) :
    (transfer_credits store transfer = .error .badRequest ↔ transfer.amount ≤ 0) ∧
    ((∃ e, transfer_credits store transfer = .error e ∧ e.isUserNotFound = true) ↔
      (0 < transfer.amount ∧
        (store transfer.from_user_id = none ∨ store transfer.to_user_id = none))) ∧
    (transfer_credits store transfer = .error .insufficientFunds ↔
      (0 < transfer.amount ∧ ∃ fu, store transfer.from_user_id = some fu ∧
        (store transfer.to_user_id).isSome = true ∧
        fu.time_credits < transfer.amount)) ∧
    ((∃ r, transfer_credits store transfer = .ok r) ↔
      (0 < transfer.amount ∧ ∃ fu, store transfer.from_user_id = some fu ∧
        (store transfer.to_user_id).isSome = true ∧
        transfer.amount ≤ fu.time_credits)) ∧
    (∀ fu tu, store transfer.from_user_id = some fu →
      store transfer.to_user_id = some tu →
      0 < transfer.amount → transfer.amount ≤ fu.time_credits →
      ∃ store', transfer_credits store transfer = .ok (store',
          ⟨⟨transfer.from_user_id, fu.time_credits - transfer.amount⟩,
           ⟨transfer.to_user_id, tu.time_credits + transfer.amount⟩⟩) ∧
        (transfer.from_user_id ≠ transfer.to_user_id →
          storedCredits store' transfer.from_user_id
            = some (fu.time_credits - transfer.amount)) ∧
        storedCredits store' transfer.to_user_id
          = some (tu.time_credits + transfer.amount) ∧
        (∀ k, k ≠ transfer.from_user_id → k ≠ transfer.to_user_id →
          store' k = store k)) ∧
    (∀ e, transfer_credits store transfer = .error e →
      transferStep store transfer = store) := by
  refine ⟨?_, ?_, ?_, ?_, ?_, ?_⟩
  · constructor
    · intro h
      by_contra hpos
      unfold transfer_credits at h
      rw [if_neg hpos] at h
      split at h
      · simp at h
      · split at h
        · simp at h
        · dsimp only at h
          split at h
          · simp at h
          · simp at h
    · intro h
      simp [transfer_credits, h]
  · constructor
    · rintro ⟨e, he, hun⟩
      unfold transfer_credits at he
      split at he
      · simp only [Except.error.injEq] at he
        subst he
        simp [TransferError.isUserNotFound] at hun
      · rename_i hpos
        split at he
        · rename_i hfrom
          exact ⟨by omega, Or.inl hfrom⟩
        · split at he
          · rename_i hto
            exact ⟨by omega, Or.inr hto⟩
          · dsimp only at he
            split at he
            · simp only [Except.error.injEq] at he
              subst he
              simp [TransferError.isUserNotFound] at hun
            · simp at he
    · rintro ⟨hpos, hmiss⟩
      have hgt : ¬ transfer.amount ≤ 0 := by omega
      rcases hfrom : store transfer.from_user_id with - | fu
      · refine ⟨.fromUserNotFound, ?_, rfl⟩
        simp [transfer_credits, hfrom, hgt]
      · rcases hto : store transfer.to_user_id with - | tu
        · refine ⟨.toUserNotFound, ?_, rfl⟩
          simp [transfer_credits, hfrom, hto, hgt]
        · simp [hfrom, hto] at hmiss
  · constructor
    · intro h
      unfold transfer_credits at h
      split at h
      · simp at h
      · rename_i hpos
        split at h
        · simp at h
        · rename_i fu hfrom
          split at h
          · simp at h
          · rename_i tu hto
            dsimp only at h
            split at h
            · rename_i hlt
              exact ⟨by omega, fu, hfrom, by simp [hto], hlt⟩
            · simp at h
    · rintro ⟨hpos, fu, hfrom, hto, hlt⟩
      have hgt2 : ¬ transfer.amount ≤ 0 := by omega
      rcases Option.isSome_iff_exists.mp hto with ⟨tu, hto2⟩
      simp only [transfer_credits, hfrom, hto2, if_neg hgt2]
      rw [if_pos hlt]
  · constructor
    · rintro ⟨r, hr⟩
      unfold transfer_credits at hr
      split at hr
      · simp at hr
      · rename_i hpos
        split at hr
        · simp at hr
        · rename_i fu hfrom
          split at hr
          · simp at hr
          · rename_i tu hto
            dsimp only at hr
            split at hr
            · simp at hr
            · rename_i hge
              exact ⟨by omega, fu, hfrom, by simp [hto], by omega⟩
    · rintro ⟨hpos, fu, hfrom, hto, hle⟩
      rcases Option.isSome_iff_exists.mp hto with ⟨tu, hto2⟩
      refine ⟨?_, ?_⟩
      · exact (setUser (setUser store transfer.from_user_id
            { fu with time_credits := fu.time_credits - transfer.amount })
            transfer.to_user_id
            { tu with time_credits := tu.time_credits + transfer.amount },
          ⟨⟨transfer.from_user_id, fu.time_credits - transfer.amount⟩,
           ⟨transfer.to_user_id, tu.time_credits + transfer.amount⟩⟩)
      · have hgt2 : ¬ transfer.amount ≤ 0 := by omega
        simp only [transfer_credits, hfrom, hto2, if_neg hgt2]
        rw [if_neg (by omega)]
  · intro fu tu hfrom hto hpos hle
    refine ⟨setUser (setUser store transfer.from_user_id
        { fu with time_credits := fu.time_credits - transfer.amount })
        transfer.to_user_id
        { tu with time_credits := tu.time_credits + transfer.amount },
        ?_, ?_, ?_, ?_⟩
    · have hgt2 : ¬ transfer.amount ≤ 0 := by omega
      simp only [transfer_credits, hfrom, hto, if_neg hgt2]
      rw [if_neg (by omega)]
    · intro hne
      simp [storedCredits, setUser, hne]
    · simp [storedCredits, setUser]
    · intro k hkf hkt
      simp [setUser, hkf, hkt]
  · intro e he
    unfold transferStep
    rw [he]

/-- Claim C10: a self-transfer `transfer(u, u, a)` with `u` existing and
`balance(u) ≥ a > 0` succeeds; afterwards `u`'s stored balance is the old
value plus `a` (the credit write overwrites the debit write), while the
returned from-balance reports the old value minus `a`. -/
theorem self_transfer_overwrites (store : UserStore) (u : String) (fu : UserRecord)
    (a : Int) (hu : store u = some fu) (hpos : 0 < a) (hle : a ≤ fu.time_credits) :
    ∃ store', transfer_credits store ⟨u, u, a⟩ = .ok (store',
        ⟨⟨u, fu.time_credits - a⟩, ⟨u, fu.time_credits + a⟩⟩) ∧
      storedCredits store' u = some (fu.time_credits + a) := by
  refine ⟨_, transfer_self store u fu a hu hpos hle, ?_⟩
  simp [storedCredits, setUser]

/-- Witness for C10 at `u1` with balance 10 and amount 5. -/
theorem self_transfer_overwrites_witness :
    ∃ store', transfer_credits oneUserStore ⟨"u1", "u1", 5⟩ = .ok (store',
        ⟨⟨"u1", demoUser.time_credits - 5⟩, ⟨"u1", demoUser.time_credits + 5⟩⟩) ∧
      storedCredits store' "u1" = some (demoUser.time_credits + 5) :=
  self_transfer_overwrites oneUserStore "u1" demoUser 5 rfl (by decide) (by decide)

/-- Counterexample to C1 as stated: the self-transfer `(u1, u1, 5)` on a
balance of 10 succeeds and leaves the stored balance at 15, so the total
over the two (equal) parties is not conserved. -/
theorem transfer_self_pair_not_conserved :
    (∃ r, transfer_credits oneUserStore ⟨"u1", "u1", 5⟩ = .ok r) ∧
    storedCredits oneUserStore "u1" = some 10 ∧
    storedCredits (transferStep oneUserStore ⟨"u1", "u1", 5⟩) "u1" = some 15 ∧
    ((10 : Int) ≠ 15) := by
  refine ⟨⟨_, rfl⟩, rfl, rfl, by decide⟩

/-- Witness for C1 (amended): transfer of 5 from `u1` (balance 10) to `u2`
(balance 3). -/
theorem transfer_conservation_witness :
    ∃ fu tu, twoUserStore "u1" = some fu ∧ twoUserStore "u2" = some tu ∧
      storedCredits (transferStep twoUserStore ⟨"u1", "u2", 5⟩) "u1"
        = some (fu.time_credits - 5) ∧
      storedCredits (transferStep twoUserStore ⟨"u1", "u2", 5⟩) "u2"
        = some (tu.time_credits + 5) ∧
      (fu.time_credits - 5) + (tu.time_credits + 5)
        = fu.time_credits + tu.time_credits :=
  transfer_conservation.1 twoUserStore ⟨"u1", "u2", 5⟩
    (transferStep twoUserStore ⟨"u1", "u2", 5⟩)
    ⟨⟨"u1", 5⟩, ⟨"u2", 8⟩⟩ rfl (by decide)

/-- Counterexample to C2 as stated: `create_task` with a nonexistent
requester and offer 0 raises `BadRequest`, not the claimed `UserNotFound`. -/
theorem create_task_guard_order_cex :
    create_task emptyTasks emptyUsers ⟨"t", "d", "alice", 0⟩ "id1" 0
      = .error .BadRequest ∧
    emptyUsers "alice" = none ∧
    (ExchError.BadRequest ≠ ExchError.UserNotFound) := ⟨rfl, rfl, by decide⟩

/-- Witness for C2 (amended) at the create conjunct. -/
theorem guard_order_witness :
    create_task emptyTasks emptyUsers ⟨"t", "d", "alice", 0⟩ "id1" 0
      = .error .BadRequest :=
  guard_order.1 emptyTasks emptyUsers ⟨"t", "d", "alice", 0⟩ "id1" 0 (by decide)

/-- Witness for C3: a transport failure on `complete` leaves the system
unchanged. -/
theorem complete_transfer_failure_atomic_witness :
    applyOp sysC (.completeT "t3" "u2" false) 7 = .error .TransferFailed ∧
    step sysC (.completeT "t3" "u2" false) 7 = sysC :=
  complete_transfer_failure_atomic sysC "t3" "u2" false 7 taskC rfl rfl rfl rfl

/-- Witness for C4 at an accept step. -/
theorem task_state_machine_witness :
    FreshCreate sysA (.acceptT "t1" "u1") ∧ sysA.tasks "t1" = some taskA ∧
    (step sysA (.acceptT "t1" "u1") 1).tasks "t1" = some taskA1 ∧
    (taskA1.state = taskA.state ∨ allowedEdge taskA.state taskA1.state) :=
  ⟨trivial, rfl, rfl,
   task_state_machine.1 sysA (.acceptT "t1" "u1") 1 "t1" taskA taskA1 trivial rfl rfl⟩

/-- Counterexample to C5 as stated: on the self-transfer `(u1, u1, 5)` the
response reports from-balance 5 but the post-transfer stored balance is 15. -/
theorem transfer_response_self_cex :
    (transfer_credits oneUserStore ⟨"u1", "u1", 5⟩).toOption.map
        (fun r => r.2.from_user.time_credits) = some 5 ∧
    storedCredits (transferStep oneUserStore ⟨"u1", "u1", 5⟩) "u1" = some 15 ∧
    ((5 : Int) ≠ 15) := ⟨rfl, rfl, by decide⟩

/-- Witness for C5 (amended) at the non-positive amount conjunct. -/
theorem transfer_credits_cases_witness :
    transfer_credits oneUserStore ⟨"u1", "u2", 0⟩ = .error .badRequest :=
  (transfer_credits_cases oneUserStore ⟨"u1", "u2", 0⟩).1.mpr (by decide)

/-- Witness for C6: cancelling a COMPLETED task. -/
theorem wrong_state_rejected_witness :
    applyOp sysB (.cancelT "t2" "u1") 5 = .error .InvalidStateTransition ∧
    step sysB (.cancelT "t2" "u1") 5 = sysB :=
  wrong_state_rejected sysB (.cancelT "t2" "u1") 5 "t2" taskDone rfl rfl (by decide)

/-- Witness for C7: a non-acceptor calling start. -/
theorem authorization_guards_witness :
    applyOp sysP (.startT "tp" "u1") 4 = .error .Forbidden ∧
    step sysP (.startT "tp" "u1") 4 = sysP :=
  authorization_guards.1 sysP "tp" "u1" 4 taskP rfl rfl (by decide)

/-- Witness for C8 at an accept step. -/
theorem accepted_by_set_once_witness :
    taskA1.accepted_by_user_id ≠ taskA.accepted_by_user_id ∧
    (taskA.state = RequestState.OPEN ∧ taskA.accepted_by_user_id = "" ∧
      taskA1.state = RequestState.PENDING) :=
  ⟨by decide, accepted_by_set_once.2.1 sysA (.acceptT "t1" "u1") 1 "t1" taskA taskA1
    (by
      intro id2 t2 h2 hop2
      by_cases hk : id2 = "t1"
      · subst hk
        have hv : sysA.tasks "t1" = some taskA := rfl
        rw [hv] at h2
        rw [← Option.some.inj h2]
        rfl
      · have hv : sysA.tasks id2 = none := by simp [sysA, hk]
        rw [hv] at h2
        exact Option.noConfusion h2)
    trivial rfl rfl (by decide)⟩

/-- Witness for C9: requester `u1` accepts, starts and completes their own
task. -/
theorem self_accept_allowed_witness :
    ∃ sys₁ t₁, applyOp sysA (.acceptT "t1" taskA.requested_by_user_id) 1 = .ok sys₁ ∧
      sys₁.tasks "t1" = some t₁ ∧
      t₁.accepted_by_user_id = taskA.requested_by_user_id ∧
      t₁.requested_by_user_id = taskA.requested_by_user_id ∧
      t₁.state = RequestState.PENDING ∧
      ∃ t₃, (runOps sysA [(.acceptT "t1" taskA.requested_by_user_id, 1),
          (.startT "t1" taskA.requested_by_user_id, 2),
          (.completeT "t1" taskA.requested_by_user_id true, 3)]).tasks "t1" = some t₃ ∧
        t₃.state = RequestState.COMPLETED :=
  self_accept_allowed sysA "t1" taskA demoUser 1 2 3 rfl rfl rfl (by decide) (by decide)
